import Mathlib

/-!
Verification of the plugin subsystem of the Jarvis AI assistant
(`plugins/base_plugin.py`): the `BasePlugin` contract and the
`PluginManager` registry (its dicts, its active set, and the
dispatch / lifecycle operations).

The embedding is a direct shallow translation of the Python source:

* Python dicts become insertion-ordered association lists
  (`dictInsert` overwrites in place, as Python dicts do since 3.7).
* The `active_plugins` set is represented by a duplicate-free list whose
  order stands for whatever enumeration order the hash set happens to
  produce; claims that depend on enumeration order are analysed by
  quantifying over permutations of that list.
* A plugin instance as the manager sees it (`DynPlugin`) carries the
  dynamic behaviour of its (possibly overridden) methods:
  `validate` and `process` may raise (`Except.error msg` models a Python
  exception `e` with `str(e) = msg`), and `shutdownRaises` tells whether
  its `shutdown()` raises.
* Operations that mutate the manager return the new state explicitly;
  invocations of plugin `shutdown()` are recorded in a `calls` trace so
  that "shutdown was invoked exactly once" is expressible.
-/

/-- Response dictionary returned by command processing: the code's response
dicts always carry at least the keys `success` and `message`; further keys
are not needed by any claim and are not modelled. -/
structure Response where
  success : Bool
  message : String
deriving DecidableEq, Repr

/-- Python `str.lower`, restricted to the ASCII case mapping (all command
patterns in the repository are ASCII). -/
def pyLower (s : String) : String :=
  ⟨s.data.map Char.toLower⟩

/-- Python substring containment `needle in haystack`, over the underlying
character lists: some suffix of the haystack starts with the needle. -/
def pyContains (needle haystack : List Char) : Bool :=
  haystack.tails.any (fun t => needle.isPrefixOf t)

/-- `BasePlugin.validate_command`: scans `self.commands.keys()` and returns
`True` as soon as one pattern, lowercased, is contained in the lowercased
command; otherwise `False`.  The method's `try/except` is dead code in this
body (no statement in it can raise), so the embedding is total. -/
def validate_command (commands : List (String × String)) (command : String) : Bool :=
  commands.any (fun pr => pyContains (pyLower pr.1).data (pyLower command).data)

/-- `BasePlugin.register_command`: `self.commands[pattern] = description`. -/
def register_command (commands : List (String × String)) (pat : String)
    (description : String) : List (String × String) :=
  match commands with
  | [] => [(pat, description)]
  | (k, v) :: rest =>
    if k = pat then (pat, description) :: rest
    else (k, v) :: register_command rest pat description

/-- `BasePlugin.handle_error`: builds the error response for an exception
whose `str` is `msg` (the extra `error` key of the dict is not modelled). -/
def handle_error (msg : String) : Response :=
  ⟨false, "Plugin error: " ++ msg⟩

/-- A plugin instance as stored in the manager's registry: its `name`,
`commands` and `is_active` attributes, plus the dynamic behaviour of its
(possibly overridden) methods.  `validate`/`process` return
`Except.error msg` when the call raises an exception with `str = msg`;
`shutdownRaises = some msg` means `shutdown()` raises. -/
structure DynPlugin where
  name : String
  commands : List (String × String)
  is_active : Bool
  validate : String → Except String Bool
  process : String → Except String Response
  shutdownRaises : Option String

/-- The `validate_command` behaviour a plugin inherits from `BasePlugin`
when it does not override the method: never raises, substring test. -/
def baseValidate (commands : List (String × String)) :
    String → Except String Bool :=
  fun command => Except.ok (validate_command commands command)

/-- Python dict write `d[k] = v`: overwrites in place if the key is
present (keeping its original position), else appends. -/
def dictInsert (k : String) (v : α) : List (String × α) → List (String × α)
  | [] => [(k, v)]
  | (k', v') :: rest =>
    if k' = k then (k, v) :: rest else (k', v') :: dictInsert k v rest

/-- Python dict read `d[k]` (`none` models the `KeyError` case). -/
def dictGet (k : String) : List (String × α) → Option α
  | [] => none
  | (k', v) :: rest => if k' = k then some v else dictGet k rest

/-- Python `del d[k]` for a key that occurs at most once. -/
def dictErase (k : String) : List (String × α) → List (String × α)
  | [] => []
  | (k', v) :: rest => if k' = k then rest else (k', v) :: dictErase k rest

/-- In-place mutation `d[k].attr = ...` of the object stored under `k`. -/
def dictModify (k : String) (f : α → α) : List (String × α) → List (String × α)
  | [] => []
  | (k', v) :: rest =>
    if k' = k then (k', f v) :: rest else (k', v) :: dictModify k f rest

/-- `PluginManager` state: `plugins` is the insertion-ordered dict from
plugin name to instance; `active_plugins` is the contents of the Python
set, listed in its (hash-determined, unspecified) enumeration order. -/
structure PluginManager where
  plugins : List (String × DynPlugin)
  active_plugins : List String

/-- `PluginManager.__init__`: both containers start empty. -/
def initManager : PluginManager := ⟨[], []⟩

/-- Outcome of the constructor-plus-`initialize()` prefix of
`load_plugin`: the construction or the `initialize()` call raised, or
`initialize()` returned `False`, or it returned `True` leaving the fully
initialised instance `p`. -/
inductive LoadOutcome where
  | raised (msg : String)
  | initFalse (p : DynPlugin)
  | initOk (p : DynPlugin)

/-- Result of a lifecycle operation: the returned bool, the manager state
after the call, and the names of the plugins whose `shutdown()` the
operation invoked, in invocation order. -/
structure OpResult where
  ok : Bool
  state : PluginManager
  calls : List String

/-- `PluginManager.load_plugin`: on an exception from construction or
`initialize()`, or on `initialize()` returning `False`, returns `False`
with nothing stored; on success stores the instance under its name
(overwriting any previous entry) and returns `True`.  No `shutdown()` is
invoked on any path. -/
def load_plugin (pm : PluginManager) (outcome : LoadOutcome) : OpResult :=
  match outcome with
  | .raised _ => ⟨false, pm, []⟩
  | .initFalse _ => ⟨false, pm, []⟩
  | .initOk p => ⟨true, { pm with plugins := dictInsert p.name p pm.plugins }, []⟩

/-- `PluginManager.unload_plugin`: if the name is absent, returns `False`.
Otherwise invokes the plugin's `shutdown()`; if that raises, the `except`
catches it and returns `False` with the registry unchanged; on success the
entry is deleted and the name discarded from the active set. -/
def unload_plugin (pm : PluginManager) (n : String) : OpResult :=
  match dictGet n pm.plugins with
  | none => ⟨false, pm, []⟩
  | some p =>
    match p.shutdownRaises with
    | some _ => ⟨false, pm, [n]⟩
    | none =>
      ⟨true,
        { plugins := dictErase n pm.plugins
          active_plugins :=
            if n ∈ pm.active_plugins then pm.active_plugins.erase n
            else pm.active_plugins },
        [n]⟩

/-- `PluginManager.activate_plugin`: if loaded, sets the stored object's
`is_active` flag, adds the name to the active set (a set add: no effect if
already present; the model appends, one possible enumeration position) and
returns `True`; else returns `False`. -/
def activate_plugin (pm : PluginManager) (n : String) : Bool × PluginManager :=
  match dictGet n pm.plugins with
  | some _ =>
    (true,
      { plugins := dictModify n (fun p => { p with is_active := true }) pm.plugins
        active_plugins :=
          if n ∈ pm.active_plugins then pm.active_plugins
          else pm.active_plugins ++ [n] })
  | none => (false, pm)

/-- `PluginManager.deactivate_plugin`: if the name is loaded, first clears
the stored object's `is_active` flag, then calls `set.remove`; when the
name is not in the active set, `remove` raises `KeyError`, the `except`
catches it and `False` is returned — but the flag mutation has already
happened.  If the name is not loaded at all, returns `False` untouched. -/
def deactivate_plugin (pm : PluginManager) (n : String) : Bool × PluginManager :=
  match dictGet n pm.plugins with
  | some _ =>
    let pm1 : PluginManager :=
      { pm with plugins := dictModify n (fun p => { p with is_active := false }) pm.plugins }
    if n ∈ pm1.active_plugins then
      (true, { pm1 with active_plugins := pm1.active_plugins.erase n })
    else
      (false, pm1)
  | none => (false, pm)

/-- The body of the `try` in `PluginManager.process_command`: walk the
active set in the given enumeration order; look each name up in `plugins`
(a miss is a `KeyError`, whose `str` is the quoted key); on the first
plugin whose `validate_command` returns true, return its
`process_command` result.  Exceptions from either method propagate as
`Except.error`. -/
def tryPlugins (plugins : List (String × DynPlugin)) (command : String) :
    List String → Except String Response
  | [] => Except.ok ⟨false, "No plugin available to handle this command"⟩
  | n :: rest =>
    match dictGet n plugins with
    | none => Except.error ("'" ++ n ++ "'")
    | some p =>
      match p.validate command with
      | Except.error e => Except.error e
      | Except.ok true => p.process command
      | Except.ok false => tryPlugins plugins command rest

/-- `PluginManager.process_command`: runs the dispatch loop over the
active set's enumeration order; any exception is caught by the `except`
and converted to the `Plugin error:` response.  The registry state is not
modified. -/
def process_command (pm : PluginManager) (command : String) : Response :=
  match tryPlugins pm.plugins command pm.active_plugins with
  | Except.ok r => r
  | Except.error e => ⟨false, "Plugin error: " ++ e⟩

/-- The `for` loop of `PluginManager.shutdown` over `plugins.values()` in
dict order: returns the dict as left behind (successful `shutdown()`
calls clear the object's `is_active`; a raise stops the loop with the
remaining entries untouched), the trace of invoked plugin names, and
whether the loop finished without an exception. -/
def shutdownLoop : List (String × DynPlugin) →
    List (String × DynPlugin) × List String × Bool
  | [] => ([], [], true)
  | (n, p) :: rest =>
    match p.shutdownRaises with
    | some _ => ((n, p) :: rest, [n], false)
    | none =>
      let r := shutdownLoop rest
      ((n, { p with is_active := false }) :: r.1, n :: r.2.1, r.2.2)

/-- `PluginManager.shutdown`: iterates all plugins' `shutdown()`; if the
loop completes, both containers are cleared; if some plugin's shutdown
raises, the exception aborts the loop, skips both `clear()` calls, and is
swallowed by the `except`.  Returns the final state and the trace of
`shutdown()` invocations. -/
def pmShutdown (pm : PluginManager) : PluginManager × List String :=
  let r := shutdownLoop pm.plugins
  if r.2.2 then (⟨[], []⟩, r.2.1)
  else ({ pm with plugins := r.1 }, r.2.1)

/-! ## Basic lemmas about the dict and substring primitives -/

theorem pyContains_iff (needle haystack : List Char) :
    pyContains needle haystack = true ↔ needle <:+: haystack := by
  simp only [pyContains, List.any_eq_true, List.mem_tails,
    List.isPrefixOf_iff_prefix, List.infix_iff_prefix_suffix]
  exact ⟨fun ⟨t, hs, hp⟩ => ⟨t, hp, hs⟩, fun ⟨t, hp, hs⟩ => ⟨t, hs, hp⟩⟩

theorem dictGet_dictInsert (k m : String) (v : α) (d : List (String × α)) :
    dictGet m (dictInsert k v d) = if k = m then some v else dictGet m d := by
  induction d with
  | nil => simp [dictGet, dictInsert]
  | cons e rest ih =>
    obtain ⟨k', v'⟩ := e
    by_cases hk : k' = k
    · subst hk
      by_cases hm : k' = m <;> simp [dictGet, dictInsert, hm]
    · by_cases hm : k' = m
      · have hkm : ¬k = m := fun h => hk (hm.trans h.symm)
        have hmk : ¬m = k := fun h => hkm h.symm
        simp [dictGet, dictInsert, hk, hm, hkm, hmk]
      · simp [dictGet, dictInsert, hk, hm, ih]

theorem dictGet_dictModify (k m : String) (f : α → α) (d : List (String × α)) :
    dictGet m (dictModify k f d) =
      if k = m then (dictGet m d).map f else dictGet m d := by
  induction d with
  | nil => simp [dictGet, dictModify]
  | cons e rest ih =>
    obtain ⟨k', v'⟩ := e
    by_cases hk : k' = k
    · subst hk
      by_cases hm : k' = m <;> simp [dictGet, dictModify, hm]
    · by_cases hm : k' = m
      · have hkm : ¬k = m := fun h => hk (hm.trans h.symm)
        have hmk : ¬m = k := fun h => hkm h.symm
        simp [dictGet, dictModify, hk, hm, hkm, hmk]
      · simp [dictGet, dictModify, hk, hm, ih]

/-! ## Claim C6 -/

/-- Claim C6: for every unit and every command string, `validate_command`
returns true if and only if some pattern registered in the unit's
`commands` map, compared case-insensitively, occurs as a contiguous
substring of the command.  The right-hand side is pure character-list
containment (`<:+:`), so no pattern compilation or regex interpretation
takes part in the test. -/
theorem validate_command_iff_substring
    (commands : List (String × String)) (command : String) :
    validate_command commands command = true ↔
      ∃ pat description, (pat, description) ∈ commands ∧
        (pyLower pat).data <:+: (pyLower command).data := by
  simp only [validate_command, List.any_eq_true, pyContains_iff]
  constructor
  · rintro ⟨⟨pat, description⟩, hmem, hinf⟩
    exact ⟨pat, description, hmem, hinf⟩
  · rintro ⟨pat, description, hmem, hinf⟩
    exact ⟨⟨pat, description⟩, hmem, hinf⟩

/-! ## Claim C4 -/

/-- Claim C4: if construction or `initialize()` raises (`raised`), or
`initialize()` returns false (`initFalse`), then `load_plugin` returns
false and leaves `plugins` and `active_plugins` exactly as before the
call — the whole result is `⟨false, pm, []⟩`, so no partial state is
stored and no shutdown is invoked. -/
theorem load_plugin_failure_leaves_state
    (pm : PluginManager) (msg : String) (p : DynPlugin) :
    load_plugin pm (LoadOutcome.raised msg) = ⟨false, pm, []⟩ ∧
      load_plugin pm (LoadOutcome.initFalse p) = ⟨false, pm, []⟩ :=
  ⟨rfl, rfl⟩

/-! ## Claim C7 -/

/-- Claim C7: `process_command` on a manager whose active set is empty
returns the no-plugin response for every non-empty command string. -/
theorem process_command_empty_active (pm : PluginManager) (command : String)
    (hact : pm.active_plugins = []) (hne : command ≠ "") :
    process_command pm command =
      ⟨false, "No plugin available to handle this command"⟩ := by
  simp [process_command, hact, tryPlugins]

/-- Claim C7, instantiated: the freshly initialised manager and the
command `"hello"`. -/
theorem process_command_empty_active_witness :
    process_command initManager "hello" =
      ⟨false, "No plugin available to handle this command"⟩ :=
  process_command_empty_active initManager "hello" rfl (by decide)

/-! ## Claims C9 and C10 -/

/-- Claim C9: `deactivate_plugin` on an identity not in the active set —
whether loaded-but-inactive or entirely absent — returns false and leaves
the active set unchanged.  (The embedding is a total function: the
`KeyError` that `set.remove` raises in the loaded-but-inactive case is
caught inside the method, so no exception escapes.) -/
theorem deactivate_inactive_returns_false (pm : PluginManager) (n : String)
    (h : n ∉ pm.active_plugins) :
    (deactivate_plugin pm n).1 = false ∧
      (deactivate_plugin pm n).2.active_plugins = pm.active_plugins := by
  cases hg : dictGet n pm.plugins with
  | none => simp [deactivate_plugin, hg]
  | some p => simp [deactivate_plugin, hg, h]

/-- A plugin instance loaded but not activated, with its `is_active`
attribute set, used to exhibit the frame effect of `deactivate_plugin`. -/
def pW : DynPlugin :=
  ⟨"W", [], true, baseValidate [], fun _ => Except.ok ⟨true, "ok"⟩, none⟩

/-- A manager holding `pW` in `plugins` with an empty active set. -/
def pmW : PluginManager := ⟨[("W", pW)], []⟩

/-- Claim C9, instantiated: deactivating the loaded-but-inactive `"W"`. -/
theorem deactivate_inactive_returns_false_witness :
    (deactivate_plugin pmW "W").1 = false ∧
      (deactivate_plugin pmW "W").2.active_plugins = pmW.active_plugins :=
  deactivate_inactive_returns_false pmW "W" (by decide)

/-- Claim C10: for an identity in `plugins` but not in the active set,
`deactivate_plugin` returns false yet has already overwritten the stored
object's `is_active` attribute with false before `set.remove` raised —
so a false return does not mean the unit object is unchanged (start from
`is_active = true` and the object differs afterwards). -/
theorem deactivate_inactive_mutates_flag (pm : PluginManager) (n : String)
    (p : DynPlugin) (hp : dictGet n pm.plugins = some p)
    (h : n ∉ pm.active_plugins) :
    (deactivate_plugin pm n).1 = false ∧
      dictGet n (deactivate_plugin pm n).2.plugins =
        some { p with is_active := false } := by
  simp [deactivate_plugin, hp, h, dictGet_dictModify]

/-- Claim C10, instantiated: `pW` starts with `is_active = true`; after the
failed deactivation the stored object has `is_active = false`. -/
theorem deactivate_inactive_mutates_flag_witness :
    (deactivate_plugin pmW "W").1 = false ∧
      dictGet "W" (deactivate_plugin pmW "W").2.plugins =
        some { pW with is_active := false } :=
  deactivate_inactive_mutates_flag pmW "W" pW rfl (by decide)

/-! ## Claim C2 -/

/-- Number of entries of the dict carrying the key `k`. -/
def countKey (k : String) : List (String × α) → Nat
  | [] => 0
  | (k', _) :: rest => (if k' = k then 1 else 0) + countKey k rest

theorem countKey_eq_zero_of_not_mem (k : String) (d : List (String × α))
    (h : k ∉ d.map Prod.fst) : countKey k d = 0 := by
  induction d with
  | nil => rfl
  | cons e rest ih =>
    obtain ⟨k', v⟩ := e
    simp only [List.map_cons, List.mem_cons, not_or] at h
    have hk : ¬k' = k := fun hh => h.1 hh.symm
    simp [countKey, hk, ih h.2]

theorem countKey_dictInsert (k : String) (v : α) (d : List (String × α))
    (h : (d.map Prod.fst).Nodup) : countKey k (dictInsert k v d) = 1 := by
  induction d with
  | nil => simp [countKey, dictInsert]
  | cons e rest ih =>
    obtain ⟨k', v'⟩ := e
    simp only [List.map_cons, List.nodup_cons] at h
    by_cases hk : k' = k
    · subst hk
      simp [dictInsert, countKey,
        countKey_eq_zero_of_not_mem k' rest h.1]
    · simp [dictInsert, hk, countKey, ih h.2]

/-- The unit already stored under the identity `"p"`. -/
def oldP : DynPlugin :=
  ⟨"p", [], false, baseValidate [], fun _ => Except.ok ⟨true, "old"⟩, none⟩

/-- A second unit with the same identity `"p"`. -/
def newP : DynPlugin :=
  ⟨"p", [], false, baseValidate [], fun _ => Except.ok ⟨true, "new"⟩, none⟩

/-- A registry already holding `oldP` under `"p"`. -/
def pmC2 : PluginManager := ⟨[("p", oldP)], []⟩

/-- Claim C2 is false on the code at a concrete input: re-loading the
identity `"p"` over `pmC2` invokes no `shutdown()` at all — the trace of
shutdown invocations is empty, so the prior unit's shutdown is invoked
zero times, not exactly once as claimed. -/
theorem load_overwrite_no_shutdown_cex :
    (load_plugin pmC2 (LoadOutcome.initOk newP)).calls = [] ∧
      ¬(load_plugin pmC2 (LoadOutcome.initOk newP)).calls.count "p" = 1 :=
  ⟨rfl, by decide⟩

/-- Claim C2 as amended: a successful `load_plugin` of a second unit under
an identity already present leaves exactly one entry for that identity —
the new unit — but the prior unit's `shutdown()` is never invoked during
the overwrite (the operation performs no shutdown call at all). -/
theorem load_overwrite_unique_entry (pm : PluginManager) (p : DynPlugin)
    (hdup : (pm.plugins.map Prod.fst).Nodup)
    (hmem : (dictGet p.name pm.plugins).isSome = true) :
    (load_plugin pm (LoadOutcome.initOk p)).ok = true ∧
      countKey p.name (load_plugin pm (LoadOutcome.initOk p)).state.plugins = 1 ∧
      dictGet p.name (load_plugin pm (LoadOutcome.initOk p)).state.plugins = some p ∧
      (load_plugin pm (LoadOutcome.initOk p)).calls = [] := by
  refine ⟨rfl, ?_, ?_, rfl⟩
  · simpa [load_plugin] using countKey_dictInsert p.name p pm.plugins hdup
  · simp [load_plugin, dictGet_dictInsert]

/-- Claim C2 (amended), instantiated: loading `newP` over `pmC2`. -/
theorem load_overwrite_unique_entry_witness :
    (load_plugin pmC2 (LoadOutcome.initOk newP)).ok = true ∧
      countKey "p" (load_plugin pmC2 (LoadOutcome.initOk newP)).state.plugins = 1 ∧
      dictGet "p" (load_plugin pmC2 (LoadOutcome.initOk newP)).state.plugins = some newP ∧
      (load_plugin pmC2 (LoadOutcome.initOk newP)).calls = [] :=
  load_overwrite_unique_entry pmC2 newP (by decide) (by decide)

/-! ## Claim C3 -/

/-- An active unit whose `shutdown()` raises. -/
def pRaise : DynPlugin :=
  ⟨"p1", [], true, baseValidate [], fun _ => Except.ok ⟨true, "one"⟩, some "boom"⟩

/-- A second active unit, loaded after `pRaise`, with a clean shutdown. -/
def pSecond : DynPlugin :=
  ⟨"p2", [], true, baseValidate [], fun _ => Except.ok ⟨true, "two"⟩, none⟩

/-- A registry holding `pRaise` before `pSecond`, both active. -/
def pmC3 : PluginManager := ⟨[("p1", pRaise), ("p2", pSecond)], ["p1", "p2"]⟩

/-- Claim C3 is contradicted by the code at a concrete input: with
`"p1"`'s shutdown raising, the single `try` wrapping the whole loop in
`PluginManager.shutdown` aborts at the first unit.  The invocation trace
is `["p1"]` — `"p2"` never gets a shutdown attempt — and neither
`plugins` nor `active_plugins` is cleared. -/
theorem shutdown_raise_aborts_loop :
    (pmShutdown pmC3).2 = ["p1"] ∧
      (pmShutdown pmC3).2.count "p2" = 0 ∧
      (pmShutdown pmC3).1.plugins.length = 2 ∧
      (pmShutdown pmC3).1.active_plugins = ["p1", "p2"] :=
  ⟨rfl, rfl, rfl, rfl⟩

/-! ## Claim C1 -/

/-- A command table registering the single pattern `"hello"`. -/
def greetCommands : List (String × String) := [("hello", "greet")]

/-- An active unit named `"A"` matching `"hello"`. -/
def pA : DynPlugin :=
  ⟨"A", greetCommands, true, baseValidate greetCommands,
    fun _ => Except.ok ⟨true, "handled by A"⟩, none⟩

/-- An active unit named `"B"`, also matching `"hello"`. -/
def pB : DynPlugin :=
  ⟨"B", greetCommands, true, baseValidate greetCommands,
    fun _ => Except.ok ⟨true, "handled by B"⟩, none⟩

/-- The plugins dict holding both units. -/
def plugsAB : List (String × DynPlugin) := [("A", pA), ("B", pB)]

/-- The registry under the enumeration `A, B` of the active set. -/
def pmAB : PluginManager := ⟨plugsAB, ["A", "B"]⟩

/-- The same registry under the enumeration `B, A` of the active set. -/
def pmBA : PluginManager := ⟨plugsAB, ["B", "A"]⟩

/-- Claim C1 is contradicted by the code: `process_command` iterates the
*unordered* Python set `active_plugins`, so the winner between two active
units that both validate the same input is whichever the set's hash-driven
enumeration yields first.  `pmAB` and `pmBA` are one and the same registry
— equal `plugins` dicts and the same active set `{"A", "B"}` — under two
enumerations of that set, and dispatching `"hello"` returns the two
different units' responses.  The choice is therefore neither tied to
activation/insertion order nor deterministic across runs. -/
theorem process_command_order_dependent :
    pmAB.plugins = pmBA.plugins ∧
      pmAB.active_plugins.Perm pmBA.active_plugins ∧
      process_command pmAB "hello" = ⟨true, "handled by A"⟩ ∧
      process_command pmBA "hello" = ⟨true, "handled by B"⟩ ∧
      process_command pmAB "hello" ≠ process_command pmBA "hello" :=
  ⟨rfl, by decide, rfl, rfl, by decide⟩

/-! ## Claim C8 -/

theorem tryPlugins_append_skip (plugins : List (String × DynPlugin))
    (command : String) (pre l : List String)
    (hpre : ∀ m ∈ pre, ∃ q, dictGet m plugins = some q ∧
      q.validate command = Except.ok false) :
    tryPlugins plugins command (pre ++ l) = tryPlugins plugins command l := by
  induction pre with
  | nil => rfl
  | cons m rest ih =>
    obtain ⟨q, hq, hv⟩ := hpre m (List.mem_cons_self m rest)
    simp only [List.cons_append, tryPlugins, hq, hv]
    exact ih fun x hx => hpre x (List.mem_cons_of_mem m hx)

/-- Claim C8: when the dispatch loop reaches an active unit whose
`validate_command` raises, or whose `validate_command` accepts and whose
`process_command` raises, the `except` in the registry's
`process_command` converts the exception into the
`Plugin error: <text>` response.  (`process_command` is a total function
into `Response`, so no exception raised inside a unit ever propagates out
of the registry to the host.) -/
theorem process_command_catches_plugin_error (pm : PluginManager)
    (command : String) (pre rest : List String) (n : String)
    (p : DynPlugin) (e : String)
    (hact : pm.active_plugins = pre ++ n :: rest)
    (hpre : ∀ m ∈ pre, ∃ q, dictGet m pm.plugins = some q ∧
      q.validate command = Except.ok false)
    (hp : dictGet n pm.plugins = some p)
    (hraise : p.validate command = Except.error e ∨
      (p.validate command = Except.ok true ∧
        p.process command = Except.error e)) :
    process_command pm command = ⟨false, "Plugin error: " ++ e⟩ := by
  have hskip := tryPlugins_append_skip pm.plugins command pre (n :: rest) hpre
  unfold process_command
  rw [hact, hskip]
  rcases hraise with hv | ⟨hv, hproc⟩
  · simp [tryPlugins, hp, hv]
  · simp [tryPlugins, hp, hv, hproc]

/-- An active unit whose `validate_command` raises `"boom"`. -/
def pBoom : DynPlugin :=
  ⟨"X", [], true, fun _ => Except.error "boom",
    fun _ => Except.ok ⟨true, "ok"⟩, none⟩

/-- A registry with the raising unit `"X"` active. -/
def pmBoom : PluginManager := ⟨[("X", pBoom)], ["X"]⟩

/-- Claim C8, instantiated: the raising unit `"X"` is reached first and
the registry answers with the converted error response. -/
theorem process_command_catches_plugin_error_witness :
    process_command pmBoom "anything" = ⟨false, "Plugin error: boom"⟩ :=
  process_command_catches_plugin_error pmBoom "anything" [] [] "X" pBoom
    "boom" rfl (fun m hm => absurd hm (List.not_mem_nil m)) rfl (Or.inl rfl)

/-! ## Claim C5 -/

theorem dictGet_isSome_iff (m : String) (d : List (String × α)) :
    (dictGet m d).isSome = true ↔ m ∈ d.map Prod.fst := by
  induction d with
  | nil => simp [dictGet]
  | cons e rest ih =>
    obtain ⟨k', v⟩ := e
    by_cases h : k' = m
    · subst h
      simp [dictGet]
    · have h2 : ¬m = k' := fun hh => h hh.symm
      simp [dictGet, h, h2, ih]

theorem map_fst_dictModify (k : String) (f : α → α) (d : List (String × α)) :
    (dictModify k f d).map Prod.fst = d.map Prod.fst := by
  induction d with
  | nil => rfl
  | cons e rest ih =>
    obtain ⟨k', v'⟩ := e
    by_cases hk : k' = k <;> simp [dictModify, hk, ih]

theorem dictErase_sublist (k : String) (d : List (String × α)) :
    List.Sublist (dictErase k d) d := by
  induction d with
  | nil => simp [dictErase]
  | cons e rest ih =>
    obtain ⟨k', v'⟩ := e
    by_cases hk : k' = k
    · simp only [dictErase, if_pos hk]
      exact List.sublist_cons_self (k', v') rest
    · simp only [dictErase, if_neg hk]
      exact List.Sublist.cons₂ (k', v') ih

theorem map_fst_dictInsert (k : String) (v : α) (d : List (String × α)) :
    (dictInsert k v d).map Prod.fst =
      if k ∈ d.map Prod.fst then d.map Prod.fst
      else d.map Prod.fst ++ [k] := by
  induction d with
  | nil => simp [dictInsert]
  | cons e rest ih =>
    obtain ⟨k', v'⟩ := e
    by_cases hk : k' = k
    · subst hk
      simp [dictInsert]
    · have hk2 : ¬k = k' := fun hh => hk hh.symm
      by_cases hm : k ∈ rest.map Prod.fst
      · simp [dictInsert, hk, hk2, hm, ih]
      · simp [dictInsert, hk, hk2, hm, ih]

theorem nodup_keys_dictInsert (k : String) (v : α) (d : List (String × α))
    (h : (d.map Prod.fst).Nodup) :
    ((dictInsert k v d).map Prod.fst).Nodup := by
  rw [map_fst_dictInsert]
  by_cases hm : k ∈ d.map Prod.fst
  · simpa [hm] using h
  · simp [hm, List.nodup_append, h]

theorem shutdownLoop_keys (d : List (String × DynPlugin)) :
    (shutdownLoop d).1.map Prod.fst = d.map Prod.fst := by
  induction d with
  | nil => rfl
  | cons e rest ih =>
    obtain ⟨n, p⟩ := e
    cases hs : p.shutdownRaises with
    | some msg => simp [shutdownLoop, hs]
    | none => simp [shutdownLoop, hs, ih]

/-- Claim C5's invariant: every identity in the active set is a key of
the `plugins` dict. -/
def ActiveLoadedInv (pm : PluginManager) : Prop :=
  ∀ n ∈ pm.active_plugins, (dictGet n pm.plugins).isSome = true

/-- Strengthening of `Inv` used in the preservation proof: both containers
are also duplicate-free (the dict has unique keys, the set has unique
elements), which the Python containers guarantee structurally. -/
def GoodState (pm : PluginManager) : Prop :=
  (pm.plugins.map Prod.fst).Nodup ∧ pm.active_plugins.Nodup ∧ ActiveLoadedInv pm

/-- The manager states reachable from `__init__` by the registry
operations.  `process_command` reads but never writes the two containers,
so its step keeps the state; the remaining constructors step through the
state returned by each operation. -/
inductive Reachable : PluginManager → Prop where
  | init : Reachable initManager
  | load (pm : PluginManager) (out : LoadOutcome) :
      Reachable pm → Reachable (load_plugin pm out).state
  | unload (pm : PluginManager) (n : String) :
      Reachable pm → Reachable (unload_plugin pm n).state
  | activate (pm : PluginManager) (n : String) :
      Reachable pm → Reachable (activate_plugin pm n).2
  | deactivate (pm : PluginManager) (n : String) :
      Reachable pm → Reachable (deactivate_plugin pm n).2
  | dispatch (pm : PluginManager) (command : String) :
      Reachable pm → Reachable pm
  | cleanup (pm : PluginManager) :
      Reachable pm → Reachable (pmShutdown pm).1

theorem goodState_load (pm : PluginManager) (out : LoadOutcome)
    (h : GoodState pm) : GoodState (load_plugin pm out).state := by
  obtain ⟨hkeys, hact, hinv⟩ := h
  cases out with
  | raised msg => exact ⟨hkeys, hact, hinv⟩
  | initFalse p => exact ⟨hkeys, hact, hinv⟩
  | initOk p =>
    refine ⟨nodup_keys_dictInsert p.name p pm.plugins hkeys, hact, ?_⟩
    intro m hm
    have hm' : m ∈ pm.active_plugins := hm
    have hpl : (load_plugin pm (LoadOutcome.initOk p)).state.plugins =
        dictInsert p.name p pm.plugins := rfl
    rw [hpl, dictGet_dictInsert]
    by_cases hpn : p.name = m
    · simp [hpn]
    · simpa [hpn] using hinv m hm'

theorem dictGet_dictErase (k m : String) (d : List (String × α))
    (hne : ¬m = k) : dictGet m (dictErase k d) = dictGet m d := by
  induction d with
  | nil => rfl
  | cons e rest ih =>
    obtain ⟨k', v'⟩ := e
    by_cases hk : k' = k
    · subst hk
      have h2 : ¬k' = m := fun hh => hne (hh.symm.trans rfl)
      simp [dictGet, dictErase, h2]
    · by_cases hm : k' = m <;> simp [dictGet, dictErase, hk, hm, hne, ih]

theorem goodState_unload (pm : PluginManager) (n : String)
    (h : GoodState pm) : GoodState (unload_plugin pm n).state := by
  obtain ⟨hkeys, hact, hinv⟩ := h
  cases hg : dictGet n pm.plugins with
  | none => simpa [unload_plugin, hg] using ⟨hkeys, hact, hinv⟩
  | some p =>
    cases hs : p.shutdownRaises with
    | some msg => simpa [unload_plugin, hg, hs] using ⟨hkeys, hact, hinv⟩
    | none =>
      simp only [unload_plugin, hg, hs]
      refine ⟨?_, ?_, ?_⟩
      · exact ((dictErase_sublist n pm.plugins).map Prod.fst).nodup hkeys
      · by_cases hn : n ∈ pm.active_plugins
        · simpa [hn] using hact.erase n
        · simpa [hn] using hact
      · intro m hm
        by_cases hn : n ∈ pm.active_plugins
        · simp only [hn, if_pos] at hm
          have hmm := (hact.mem_erase_iff.mp hm)
          show (dictGet m (dictErase n pm.plugins)).isSome = true
          rw [dictGet_dictErase n m pm.plugins hmm.1]
          exact hinv m hmm.2
        · simp only [hn, if_neg, if_false] at hm
          have hne : ¬m = n := fun hh => hn (hh ▸ hm)
          show (dictGet m (dictErase n pm.plugins)).isSome = true
          rw [dictGet_dictErase n m pm.plugins hne]
          exact hinv m hm

theorem goodState_activate (pm : PluginManager) (n : String)
    (h : GoodState pm) : GoodState (activate_plugin pm n).2 := by
  obtain ⟨hkeys, hact, hinv⟩ := h
  cases hg : dictGet n pm.plugins with
  | none => simpa [activate_plugin, hg] using ⟨hkeys, hact, hinv⟩
  | some p =>
    simp only [activate_plugin, hg]
    refine ⟨?_, ?_, ?_⟩
    · simpa [map_fst_dictModify] using hkeys
    · by_cases hn : n ∈ pm.active_plugins
      · simpa [hn] using hact
      · simp [hn, List.nodup_append, hact]
    · intro m hm
      have hm' : m ∈ pm.active_plugins ∨ m = n := by
        by_cases hn : n ∈ pm.active_plugins
        · simp only [hn, if_pos] at hm
          exact Or.inl hm
        · simp only [hn, if_neg, if_false, List.mem_append,
            List.mem_singleton] at hm
          exact hm
      rw [dictGet_dictModify]
      by_cases hnm : n = m
      · simp [← hnm, hg]
      · rcases hm' with hmm | hmn
        · simpa [hnm] using hinv m hmm
        · exact absurd hmn.symm hnm

theorem goodState_deactivate (pm : PluginManager) (n : String)
    (h : GoodState pm) : GoodState (deactivate_plugin pm n).2 := by
  obtain ⟨hkeys, hact, hinv⟩ := h
  cases hg : dictGet n pm.plugins with
  | none => simpa [deactivate_plugin, hg] using ⟨hkeys, hact, hinv⟩
  | some p =>
    simp only [deactivate_plugin, hg]
    by_cases hn : n ∈ pm.active_plugins
    · simp only [hn, if_pos]
      refine ⟨?_, ?_, ?_⟩
      · simpa [map_fst_dictModify] using hkeys
      · simpa using hact.erase n
      · intro m hm
        have hmm := hact.mem_erase_iff.mp hm
        rw [dictGet_dictModify]
        by_cases hnm : n = m
        · exact absurd hnm.symm hmm.1
        · simpa [hnm] using hinv m hmm.2
    · simp only [hn, if_neg, if_false]
      refine ⟨?_, ?_, ?_⟩
      · simpa [map_fst_dictModify] using hkeys
      · simpa using hact
      · intro m hm
        have hm' : m ∈ pm.active_plugins := hm
        rw [dictGet_dictModify]
        by_cases hnm : n = m
        · simp [← hnm, hg]
        · simpa [hnm] using hinv m hm'

theorem goodState_cleanup (pm : PluginManager)
    (h : GoodState pm) : GoodState (pmShutdown pm).1 := by
  obtain ⟨hkeys, hact, hinv⟩ := h
  unfold pmShutdown
  cases hok : (shutdownLoop pm.plugins).2.2 with
  | true =>
    simp only [hok, if_pos]
    exact ⟨List.nodup_nil, List.nodup_nil,
      fun m hm => absurd hm (List.not_mem_nil m)⟩
  | false =>
    simp only [hok, Bool.false_eq_true, if_neg, if_false]
    refine ⟨?_, hact, ?_⟩
    · simpa [shutdownLoop_keys] using hkeys
    · intro m hm
      have hm' : m ∈ pm.active_plugins := hm
      rw [dictGet_isSome_iff, shutdownLoop_keys, ← dictGet_isSome_iff]
      exact hinv m hm'

theorem goodState_reachable {pm : PluginManager} (h : Reachable pm) :
    GoodState pm := by
  induction h with
  | init =>
    exact ⟨List.nodup_nil, List.nodup_nil,
      fun m hm => absurd hm (List.not_mem_nil m)⟩
  | load pm out _ ih => exact goodState_load pm out ih
  | unload pm n _ ih => exact goodState_unload pm n ih
  | activate pm n _ ih => exact goodState_activate pm n ih
  | deactivate pm n _ ih => exact goodState_deactivate pm n ih
  | dispatch pm command _ ih => exact ih
  | cleanup pm _ ih => exact goodState_cleanup pm ih

/-- Claim C5: the invariant "every identity in `active_plugins` is a key
of `plugins`" holds in the initial state and is preserved by every
registry operation (`load_plugin`, `unload_plugin`, `activate_plugin`,
`deactivate_plugin`, `process_command` — which never writes the state —
and `shutdown`), hence holds in every reachable manager state. -/
theorem active_subset_of_units_invariant (pm : PluginManager)
    (h : Reachable pm) : ActiveLoadedInv pm :=
  (goodState_reachable h).2.2

/-- The state reached by loading the unit `pW` and then activating it. -/
def pmReach : PluginManager :=
  (activate_plugin (load_plugin initManager (LoadOutcome.initOk pW)).state "W").2

/-- Claim C5, instantiated at the concrete reachable state `pmReach`. -/
theorem active_subset_of_units_invariant_witness : ActiveLoadedInv pmReach :=
  active_subset_of_units_invariant pmReach
    (Reachable.activate _ "W"
      (Reachable.load _ (LoadOutcome.initOk pW) Reachable.init))
